import Mathlib

/-!
Verification of the auto-daily-commit core: a shallow embedding of
`GitManager` (git.manager.ts), `Scheduler` (scheduler.service.ts) and
`AutoCommitService` (auto-commit.service.ts).

External effects (git subprocess output, file-system marker checks, the
callback installed in the scheduler, clock readings) are supplied as
environment records; each definition mirrors the control flow of the
TypeScript method it is named after.  A JavaScript exception is modelled
as the `.error` branch of `Except`; a `try`/`catch` is modelled by
matching on that branch.  Logging is effect-free in the source apart from
I/O, so log calls are dropped.
-/

/-! ## JavaScript string primitives

JS strings are modelled as Lean `String`.  The string operations the core
uses (`includes`, `toLowerCase`, global literal `replace`, `substring`,
`split`, `parseInt`, `trim`) are defined here over the underlying
character lists, so that the theorems can reason about them and concrete
instances evaluate inside the kernel.  -/

/-- JS `String.prototype.includes` on character lists: `pat` occurs somewhere in `s`. -/
def hasSub (s pat : List Char) : Bool :=
  match s with
  | [] => pat.isEmpty
  | _ :: rest => pat.isPrefixOf s || hasSub rest pat

/-- JS `s.includes(pat)` on `String`. -/
def jsIncludes (s pat : String) : Bool :=
  hasSub s.data pat.data

/-- JS `s.toLowerCase()` (ASCII case folding, which covers every string the
source compares). -/
def jsToLower (s : String) : String :=
  String.mk (s.data.map Char.toLower)

/-- Fuel-driven worker for global literal replacement: replaces leftmost,
non-overlapping occurrences of `pat` by `rep`, as the source's
`message.replace(new RegExp(escapedLiteral, 'g'), value)` does.  `fuel` is
an upper bound on the number of characters still to scan. -/
def replaceAllGo (fuel : Nat) (s pat rep : List Char) : List Char :=
  match fuel, s with
  | _, [] => []
  | 0, rest => rest
  | Nat.succ f, c :: rest =>
    if pat ≠ [] ∧ pat.isPrefixOf (c :: rest) = true then
      rep ++ replaceAllGo f ((c :: rest).drop pat.length) pat rep
    else
      c :: replaceAllGo f rest pat rep

/-- Global replacement of the literal `pat` by `rep` in `s`. -/
def jsReplaceAll (s pat rep : String) : String :=
  String.mk (replaceAllGo s.data.length s.data pat.data rep.data)

/-- Worker for JS `s.split(sep)` with a single-character separator. -/
def jsSplitGo (sep : Char) : List Char → List Char → List (List Char)
  | [], acc => [acc.reverse]
  | c :: rest, acc =>
    if c == sep then acc.reverse :: jsSplitGo sep rest []
    else jsSplitGo sep rest (c :: acc)

/-- JS `s.split(sep)` for a single-character separator (the source only
splits on `' '` and `'\n'`). -/
def jsSplit (s : String) (sep : Char) : List String :=
  (jsSplitGo sep s.data []).map String.mk

/-- Digit-accumulator for `jsParseNat`. -/
def jsParseNatGo : List Char → Nat → Option Nat
  | [], acc => some acc
  | c :: rest, acc =>
    if c.isDigit then jsParseNatGo rest (acc * 10 + (c.toNat - 48)) else none

/-- JS `parseInt(s, 10)` restricted to all-digit inputs (the cron fields it
is applied to are pre-validated by node-cron); any other input is `none`,
standing for the `NaN` outcome. -/
def jsParseNat (s : String) : Option Nat :=
  match s.data with
  | [] => none
  | l => jsParseNatGo l 0

/-- The whitespace JS `trim()` strips, restricted to the characters git
output can contain. -/
def isJsWhitespace (c : Char) : Bool :=
  c == ' ' || c == '\t' || c == '\n' || c == '\r'

/-- JS `s.trim()`. -/
def jsTrim (s : String) : String :=
  String.mk (((s.data.dropWhile isJsWhitespace).reverse.dropWhile isJsWhitespace).reverse)

/-- JS `s.substring(n)` (UTF-16 positions coincide with characters for the
strings involved). -/
def jsDrop (s : String) (n : Nat) : String :=
  String.mk (s.data.drop n)

/-- JS `s.substring(0, n)`. -/
def jsTake (s : String) (n : Nat) : String :=
  String.mk (s.data.take n)

/-! ## Errors and the retrying commit executor (`GitManager.createCommitWithRetry`)

`GitOperationError` carries a message and an optional `cause`; any other
JS `Error` is the same shape with `isGitOperationError = false`.  -/

/-- A JS error value: message, whether it is a `GitOperationError`
(`error instanceof GitOperationError`), and its optional `cause`. -/
inductive JsError : Type where
  | mk (message : String) (isGitOperationError : Bool) (cause : Option JsError) : JsError

/-- The `message` property of a JS error. -/
def JsError.message : JsError → String
  | .mk m _ _ => m

/-- Whether the error is an instance of `GitOperationError`. -/
def JsError.isGitOperationError : JsError → Bool
  | .mk _ b _ => b

/-- The `cause` property of a JS error. -/
def JsError.cause : JsError → Option JsError
  | .mk _ _ c => c

/-- `createCommitWithRetry`'s classification of errors it must not retry:
the error is a `GitOperationError` whose lowercased message contains
`'no changes'`, `'empty'` or `'not in a clean state'`. -/
def isNonRetryable (e : JsError) : Bool :=
  e.isGitOperationError &&
    (jsIncludes (jsToLower e.message) "no changes" ||
     jsIncludes (jsToLower e.message) "empty" ||
     jsIncludes (jsToLower e.message) "not in a clean state")

/-- The message of the terminal error thrown after the retry budget is
exhausted: `` `Failed to create commit after ${maxRetries} attempts: ${lastError?.message}` ``. -/
def exhaustMsg (maxRetries : Nat) (lastError : Option JsError) : String :=
  "Failed to create commit after " ++ toString maxRetries ++ " attempts: " ++
    (match lastError with
     | some e => e.message
     | none => "undefined")

/-- Observable outcome of one `createCommitWithRetry` call: the returned
commit hash or thrown error, the number of `createCommit` attempts made,
and the list of sleeps performed (`setTimeout(..., retryDelayMs)`), in
order. -/
structure RetryOutcome where
  result : Except JsError String
  attemptsMade : Nat
  delays : List Nat

/-- The body of `createCommitWithRetry`'s `for (attempt = 1; attempt <=
maxRetries; attempt++)` loop.  `attempts k` is the outcome of the `k`-th
`this.createCommit(message)` call; `remaining` counts the loop iterations
left (`maxRetries + 1 - attempt`), and `lastError` is the accumulator of
the same name. -/
def retryGo (attempts : Nat → Except JsError String) (maxRetries retryDelayMs : Nat) :
    Nat → Nat → Option JsError → RetryOutcome
  | _, 0, lastError =>
    { result := .error (JsError.mk (exhaustMsg maxRetries lastError) true lastError),
      attemptsMade := 0, delays := [] }
  | attempt, Nat.succ rem, _ =>
    match attempts attempt with
    | .ok hash => { result := .ok hash, attemptsMade := 1, delays := [] }
    | .error e =>
      if isNonRetryable e then
        { result := .error e, attemptsMade := 1, delays := [] }
      else
        let rest := retryGo attempts maxRetries retryDelayMs (attempt + 1) rem (some e)
        { result := rest.result, attemptsMade := rest.attemptsMade + 1,
          delays := (if attempt < maxRetries then [retryDelayMs] else []) ++ rest.delays }

/-- `GitManager.createCommitWithRetry(message, maxRetries, retryDelayMs)`,
with the per-attempt `createCommit` outcomes supplied by `attempts`. -/
def createCommitWithRetry (attempts : Nat → Except JsError String)
    (maxRetries retryDelayMs : Nat) : RetryOutcome :=
  retryGo attempts maxRetries retryDelayMs 1 maxRetries none

/-! ## The scheduler (`Scheduler` in scheduler.service.ts)

Local wall-clock instants are modelled structurally.  Months are 1-based
here (JS `Date` uses 0-based months internally; only ordering, calendar
truncation and day arithmetic matter to the scheduler, and those are
preserved).  Comparing two JS `Date`s compares their timestamps; for
in-range field values that order coincides with lexicographic order on
the fields, realised by the injections `toKey` / `dateKey` below. -/

/-- A local wall-clock instant as the scheduler observes it through the JS
`Date` getters. -/
structure LocalDateTime where
  year : Nat
  month : Nat
  day : Nat
  hour : Nat
  minute : Nat
  second : Nat
  ms : Nat
  deriving DecidableEq, Repr

/-- Timestamp order key: strictly monotone in lexicographic field order
for in-range field values, mirroring JS `Date` comparison. -/
def toKey (d : LocalDateTime) : Nat :=
  (((((d.year * 13 + d.month) * 32 + d.day) * 24 + d.hour) * 60 + d.minute) * 60 + d.second)
      * 1000 + d.ms

/-- Calendar-date key of `new Date(d.getFullYear(), d.getMonth(), d.getDate())`:
the time-of-day fields are truncated away. -/
def dateKey (d : LocalDateTime) : Nat :=
  (d.year * 13 + d.month) * 32 + d.day

/-- Gregorian leap-year rule (what JS `Date` day arithmetic follows). -/
def isLeapYear (y : Nat) : Bool :=
  (y % 4 = 0 && y % 100 ≠ 0) || y % 400 = 0

/-- Days in a (1-based) month, as JS `Date` normalisation uses. -/
def daysInMonth (y m : Nat) : Nat :=
  if m = 2 then (if isLeapYear y then 29 else 28)
  else if m = 4 ∨ m = 6 ∨ m = 9 ∨ m = 11 then 30
  else 31

/-- `next.setDate(next.getDate() + 1)`: advance one calendar day with JS
`Date` rollover normalisation, keeping the time of day. -/
def addOneDay (d : LocalDateTime) : LocalDateTime :=
  if d.day + 1 ≤ daysInMonth d.year d.month then { d with day := d.day + 1 }
  else if d.month + 1 ≤ 12 then { d with month := d.month + 1, day := 1 }
  else { d with year := d.year + 1, month := 1, day := 1 }

/-- `Scheduler.getNextCronDate(cronExpression, fromDate)`: split the
expression, reject anything but 5 fields (the source throws `'Invalid cron
expression format'`, modelled as `none`), zero seconds/milliseconds, set
the minute and hour fields when they are not `'*'`, and advance one day if
the candidate is not after `fromDate`.  A field that `parseInt` cannot read
as a number would make the JS `Date` invalid and the subsequent
`toISOString()` throw; that degenerate outcome is also modelled as
`none` (node-cron validation upstream rules it out). -/
def getNextCronDate (cronExpression : String) (fromDate : LocalDateTime) :
    Option LocalDateTime :=
  let parts := jsSplit cronExpression ' '
  if parts.length ≠ 5 then none
  else
    let minuteField := parts.headD ""
    let hourField := (parts.drop 1).headD ""
    let base : LocalDateTime := { fromDate with second := 0, ms := 0 }
    let withMinute : Option LocalDateTime :=
      if minuteField = "*" then some base
      else (jsParseNat minuteField).map (fun m => { base with minute := m })
    match withMinute with
    | none => none
    | some d1 =>
      let withHour : Option LocalDateTime :=
        if hourField = "*" then some d1
        else (jsParseNat hourField).map (fun h => { d1 with hour := h })
      match withHour with
      | none => none
      | some d2 => some (if toKey d2 ≤ toKey fromDate then addOneDay d2 else d2)

/-- The scheduler's persisted state record (`SchedulerState` in the
source, which stores the timestamps as ISO strings). -/
structure SchedulerState where
  lastRun : Option LocalDateTime
  nextRun : Option LocalDateTime
  isActive : Bool
  cronExpression : String
  missedExecutions : List LocalDateTime
  deriving DecidableEq, Repr

/-- `Scheduler.shouldHaveRunSince(lastRun, currentTime)`: false when no
cron expression is installed, otherwise true iff the calendar date of
`currentTime` is strictly after the calendar date of `lastRun`. -/
def shouldHaveRunSince (instanceCron : String) (lastRun currentTime : LocalDateTime) : Bool :=
  if instanceCron = "" then false
  else decide (dateKey lastRun < dateKey currentTime)

/-- `Scheduler.calculateNextRun()`: recompute `state.nextRun` from the
installed cron expression; failures inside (format error / invalid date)
are caught and leave `nextRun` unchanged. -/
def calculateNextRun (instanceCron : String) (now : LocalDateTime)
    (st : SchedulerState) : SchedulerState :=
  if instanceCron = "" then st
  else
    match getNextCronDate instanceCron now with
    | some d => { st with nextRun := some d }
    | none => st

/-- `Scheduler.updateLastRun()`: stamp `lastRun` with the current time and
recompute `nextRun`. -/
def updateLastRun (instanceCron : String) (now : LocalDateTime)
    (st : SchedulerState) : SchedulerState :=
  calculateNextRun instanceCron now { st with lastRun := some now }

/-- Environment of one `handleMissedExecutions()` call: the state after
`loadState()` merged the persisted file, whether `schedule()` installed a
callback, whether that callback throws when invoked, the instance-level
cron expression, and the wall clock. -/
structure MissedEnv where
  loaded : SchedulerState
  hasCallback : Bool
  callbackError : Option String
  instanceCron : String
  now : LocalDateTime

/-- Observable outcome of `handleMissedExecutions()`: the settled value
(`.error` would be an exception escaping to the caller), the in-memory
state afterwards, how many times the callback ran, and the state written
by `saveState()` (`none` when nothing was persisted). -/
structure MissedOutcome where
  result : Except String Bool
  state : SchedulerState
  callbackCalls : Nat
  persisted : Option SchedulerState

/-- `Scheduler.handleMissedExecutions()`.  Mirrors the source: return
false without a prior `lastRun` or callback; on a detected missed run push
`now` onto `missedExecutions` and keep only the last 10; invoke the
callback; on callback success update `lastRun`/`nextRun`, persist, and
return true.  A callback exception is logged and re-thrown by the inner
`catch`, then swallowed by the method's outer `catch`, which returns
false; `updateLastRun`/`saveState` are not reached on that path. -/
def handleMissedExecutions (env : MissedEnv) : MissedOutcome :=
  let st := env.loaded
  match st.lastRun, env.hasCallback with
  | some lastRun, true =>
    if shouldHaveRunSince env.instanceCron lastRun env.now then
      let pushed := st.missedExecutions ++ [env.now]
      let trimmed := if pushed.length > 10 then pushed.drop (pushed.length - 10) else pushed
      let st1 := { st with missedExecutions := trimmed }
      match env.callbackError with
      | none =>
        let st2 := updateLastRun env.instanceCron env.now st1
        { result := .ok true, state := st2, callbackCalls := 1, persisted := some st2 }
      | some _ =>
        { result := .ok false, state := st1, callbackCalls := 1, persisted := none }
    else
      { result := .ok false, state := st, callbackCalls := 0, persisted := none }
  | _, _ =>
    { result := .ok false, state := env.loaded, callbackCalls := 0, persisted := none }

/-- One missed-execution recovery event as iterated by the C7 invariant:
run `handleMissedExecutions` with the current state as the loaded state
(the persisted file round-trips it) and keep the resulting state. -/
def missedStep (st : SchedulerState) (e : MissedEnv) : SchedulerState :=
  (handleMissedExecutions { e with loaded := st }).state

/-- Concrete recovery scenario: `lastRun` on 2025-01-01, clock now two
calendar days later, callback installed and succeeding. -/
def recoveryEnv : MissedEnv :=
  { loaded := { lastRun := some ⟨2025, 1, 1, 18, 0, 0, 0⟩, nextRun := none, isActive := false,
                cronExpression := "0 18 * * *", missedExecutions := [] },
    hasCallback := true, callbackError := none, instanceCron := "0 18 * * *",
    now := ⟨2025, 1, 3, 9, 0, 0, 0⟩ }

/-- The same recovery scenario but with a callback that throws
`'Execution failed'`, matching the repository's own scheduler unit test
`'should handle errors during missed execution gracefully'`. -/
def throwingRecoveryEnv : MissedEnv :=
  { recoveryEnv with callbackError := some "Execution failed" }

/-! ## Repository state classification (`GitManager.getRepositoryState`) -/

/-- The repository-state enum (string union `GitRepositoryState` in the
source). -/
inductive GitRepositoryState : Type where
  | clean
  | dirty
  | merging
  | rebasing
  | detached
  | conflict
  | unknown
  deriving DecidableEq, Repr

/-- The string literal the source uses for each state. -/
def GitRepositoryState.toStr : GitRepositoryState → String
  | .clean => "clean"
  | .dirty => "dirty"
  | .merging => "merging"
  | .rebasing => "rebasing"
  | .detached => "detached"
  | .conflict => "conflict"
  | .unknown => "unknown"

/-- Outcomes of the git commands and marker-file checks that
`getRepositoryState` consults, supplied by the environment.  `.error m`
models the command throwing with message `m`. -/
structure RepoEnv where
  revParseOk : Bool
  diffCheck : Except String Unit
  mergeHeadExists : Bool
  rebaseMergeExists : Bool
  rebaseApplyExists : Bool
  symbolicRef : Except String String
  statusPorcelain : Except String String

/-- `git status --porcelain` output read as `hasChanges()` does:
`stdout.trim().length > 0`. -/
def hasChangesOf (stdout : String) : Bool :=
  decide (0 < (jsTrim stdout).length)

/-- The `diff --check` step of `getRepositoryState`: a thrown error whose
message includes `'conflict'` classifies the repository as conflicted. -/
def diffCheckConflict (env : RepoEnv) : Bool :=
  match env.diffCheck with
  | .error m => jsIncludes m "conflict"
  | .ok _ => false

/-- `GitManager.getRepositoryState()`: ordered short-circuiting checks;
any failure of the surrounding operations (`rev-parse`, `hasChanges`) is
caught and yields `unknown`. -/
def getRepositoryState (env : RepoEnv) : GitRepositoryState :=
  if !env.revParseOk then .unknown
  else if diffCheckConflict env then .conflict
  else if env.mergeHeadExists then .merging
  else if env.rebaseMergeExists then .rebasing
  else if env.rebaseApplyExists then .rebasing
  else
    match env.symbolicRef with
    | .error _ => .detached
    | .ok out =>
      if jsTrim out = "" then .detached
      else
        match env.statusPorcelain with
        | .error _ => .unknown
        | .ok s => if hasChangesOf s then .dirty else .clean

/-- `GitManager.isRepositoryClean()`: the safety predicate — the state is
`clean` or `dirty`. -/
def isRepositoryClean (env : RepoEnv) : Bool :=
  match getRepositoryState env with
  | .clean => true
  | .dirty => true
  | _ => false

/-- The `state` field of `GitManager.getRepositoryInfo()`: `unknown` when
not a git repository, else the classification. -/
def getRepositoryInfoState (env : RepoEnv) : GitRepositoryState :=
  if env.revParseOk then getRepositoryState env else .unknown

/-! ## Message generation (`GitManager.generateCommitMessage` /
`applyMessageTemplate`) -/

/-- The fields of the analysis record (`analyzeFiles` in
utils/file-analyzer.ts) that the template consumes; the analysis is an
input here since its value never affects the claims. -/
structure FileAnalysis where
  changeType : String
  summary : String

/-- The formatted fragments of `new Date()` that the template placeholders
consume (`toISOString`, `toTimeString`, `toLocaleDateString`,
`getFullYear`), supplied by the environment. -/
structure NowStrings where
  dateStr : String
  timeStr : String
  timestampStr : String
  dayStr : String
  monthStr : String
  yearStr : String

/-- The `placeholders` record of `applyMessageTemplate`, in insertion
order. -/
def placeholderPairs (analysis : FileAnalysis) (files : List String) (now : NowStrings) :
    List (String × String) :=
  [("{type}", analysis.changeType),
   ("{count}", toString files.length),
   ("{files}", toString files.length),
   ("{summary}", analysis.summary),
   ("{date}", now.dateStr),
   ("{time}", now.timeStr),
   ("{timestamp}", now.timestampStr),
   ("{day}", now.dayStr),
   ("{month}", now.monthStr),
   ("{year}", now.yearStr)]

/-- The keys of `placeholderPairs` — the placeholders the template engine
knows. -/
def knownPlaceholderKeys : List String :=
  ["{type}", "{count}", "{files}", "{summary}", "{date}", "{time}",
   "{timestamp}", "{day}", "{month}", "{year}"]

/-- The placeholder-replacement loop of `applyMessageTemplate` (before the
length cap). -/
def renderTemplate (template : String) (analysis : FileAnalysis) (files : List String)
    (now : NowStrings) : String :=
  (placeholderPairs analysis files now).foldl (fun m pv => jsReplaceAll m pv.1 pv.2) template

/-- `GitManager.applyMessageTemplate`: replace the known placeholders,
then cap at `maxLength = 72` characters via
`message.substring(0, maxLength - 3) + '...'`. -/
def applyMessageTemplate (template : String) (analysis : FileAnalysis) (files : List String)
    (now : NowStrings) : String :=
  if (renderTemplate template analysis files now).length > 72 then
    jsTake (renderTemplate template analysis files now) (72 - 3) ++ "..."
  else
    renderTemplate template analysis files now

/-- The default per-category messages of `generateCommitMessage`'s
`switch`. -/
def defaultGeneratedMessage (analysis : FileAnalysis) (files : List String) : String :=
  if analysis.changeType = "code" then
    "feat: update application code (" ++ toString files.length ++ " files)"
  else if analysis.changeType = "config" then
    "config: update configuration files (" ++ toString files.length ++ " files)"
  else if analysis.changeType = "documentation" then
    "docs: update documentation (" ++ toString files.length ++ " files)"
  else if analysis.changeType = "test" then
    "test: update test files (" ++ toString files.length ++ " files)"
  else if analysis.changeType = "asset" then
    "assets: update static assets (" ++ toString files.length ++ " files)"
  else if analysis.changeType = "dependency" then
    "deps: update dependencies (" ++ toString files.length ++ " files)"
  else
    "chore: daily auto-commit with multiple updates (" ++ toString files.length ++ " files)"

/-- `GitManager.generateCommitMessage(files, customTemplate)`; a missing
or empty (JS-falsy) template selects the default messages. -/
def generateCommitMessage (files : List String) (customTemplate : Option String)
    (analysis : FileAnalysis) (now : NowStrings) : String :=
  if files.length = 0 then "chore: daily auto-commit (no changes detected)"
  else
    match customTemplate with
    | some t =>
      if t ≠ "" then applyMessageTemplate t analysis files now
      else defaultGeneratedMessage analysis files
    | none => defaultGeneratedMessage analysis files

/-! ## The orchestrator (`AutoCommitService`) -/

/-- The configuration fields `executeCommit`/`updateConfig` consume
(`AutoCommitConfig` in the source; logging-related fields are outside the
core). -/
structure AutoCommitConfig where
  enabled : Bool
  commitTime : String
  messageTemplate : String
  retryAttempts : Nat
  retryDelayMs : Nat
  repositoryPath : Option String
  deriving DecidableEq, Repr

/-- `CommitResult` as returned by `executeCommit`. -/
structure CommitResult where
  success : Bool
  commitHash : Option String
  message : String
  timestamp : LocalDateTime
  filesChanged : Nat
  error : Option String
  deriving DecidableEq, Repr

/-- The orchestrator's run counters (`totalCommits`, `lastCommitDate`,
`lastError` fields of `AutoCommitService`). -/
structure ServiceRunState where
  totalCommits : Nat
  lastCommitDate : Option LocalDateTime
  lastError : Option String
  deriving DecidableEq, Repr

/-- `GitManager.getChangedFiles()` applied to the `status --porcelain`
output: split lines, keep the non-empty ones, strip the two status
columns plus separator (`line.substring(3).trim()`). -/
def getChangedFilesOf (stdout : String) : List String :=
  ((jsSplit (jsTrim stdout) '\n').filter (fun l => 0 < l.length)).map
    (fun l => jsTrim (jsDrop l 3))

/-- Environment of one `executeCommit()` call: the git command outcomes,
the per-attempt `createCommit` outcomes inside the retry wrapper, and the
message-generation collaborators. -/
structure ExecEnv where
  repo : RepoEnv
  attempts : Nat → Except JsError String
  analysis : FileAnalysis
  nowStrings : NowStrings

/-- Observable outcome of `executeCommit()`: the returned result, the
service counters afterwards, and whether the staging/commit pipeline
(`createCommitWithRetry`) was entered at all. -/
structure ExecOutcome where
  result : CommitResult
  state : ServiceRunState
  commitAttempted : Bool

/-- `AutoCommitService.executeCommit()`.  Every failure path of the source
ends in a `return` inside the method (the unsafe-state path, the inner
catch around `createCommitWithRetry`, and the outer catch for everything
else — including a missing configuration and a throwing `hasChanges()`),
so the translation always produces `.ok`; an `.error` would model an
exception escaping to the caller. -/
def executeCommit (env : ExecEnv) (config : Option AutoCommitConfig)
    (st : ServiceRunState) (startTime : LocalDateTime) : Except JsError ExecOutcome :=
  match config with
  | none =>
    let m := "Configuration not loaded"
    .ok { result := { success := false, commitHash := none, message := "Commit execution failed",
                      timestamp := startTime, filesChanged := 0, error := some m },
          state := { st with lastError := some m }, commitAttempted := false }
  | some cfg =>
    match env.repo.statusPorcelain with
    | .error m =>
      let msg := "Failed to check for changes: " ++ m
      .ok { result := { success := false, commitHash := none,
                        message := "Commit execution failed",
                        timestamp := startTime, filesChanged := 0, error := some msg },
            state := { st with lastError := some msg }, commitAttempted := false }
    | .ok statusOut =>
      if !hasChangesOf statusOut then
        .ok { result := { success := true, commitHash := none,
                          message := "No changes to commit",
                          timestamp := startTime, filesChanged := 0, error := none },
              state := st, commitAttempted := false }
      else if !isRepositoryClean env.repo then
        let stateStr := (getRepositoryInfoState env.repo).toStr
        let warningMessage := "Repository is not in a clean state (" ++ stateStr ++
          "), skipping auto-commit"
        .ok { result := { success := false, commitHash := none, message := warningMessage,
                          timestamp := startTime, filesChanged := 0,
                          error := some ("Repository state: " ++ stateStr) },
              state := { st with lastError := some warningMessage }, commitAttempted := false }
      else
        let changedFiles := getChangedFilesOf statusOut
        let commitMessage := generateCommitMessage changedFiles
          (some cfg.messageTemplate) env.analysis env.nowStrings
        match (createCommitWithRetry env.attempts cfg.retryAttempts cfg.retryDelayMs).result with
        | .error e =>
          .ok { result := { success := false, commitHash := none, message := commitMessage,
                            timestamp := startTime, filesChanged := changedFiles.length,
                            error := some e.message },
                state := { st with lastError := some e.message }, commitAttempted := true }
        | .ok commitHash =>
          .ok { result := { success := true, commitHash := some commitHash,
                            message := commitMessage, timestamp := startTime,
                            filesChanged := changedFiles.length, error := none },
                state := { totalCommits := st.totalCommits + 1,
                           lastCommitDate := some startTime, lastError := none },
                commitAttempted := true }

/-! ## Service lifecycle and configuration updates
(`AutoCommitService.updateConfig` and the scheduler lifecycle it drives) -/

/-- `Partial<AutoCommitConfig>` as `updateConfig` receives it: absent
fields are `none`. -/
structure PartialConfig where
  enabled : Option Bool
  commitTime : Option String
  messageTemplate : Option String
  retryAttempts : Option Nat
  retryDelayMs : Option Nat
  repositoryPath : Option String

/-- The spread merge `{ ...this.config, ...newConfig }`. -/
def mergeConfig (c : AutoCommitConfig) (p : PartialConfig) : AutoCommitConfig :=
  { enabled := p.enabled.getD c.enabled,
    commitTime := p.commitTime.getD c.commitTime,
    messageTemplate := p.messageTemplate.getD c.messageTemplate,
    retryAttempts := p.retryAttempts.getD c.retryAttempts,
    retryDelayMs := p.retryDelayMs.getD c.retryDelayMs,
    repositoryPath :=
      match p.repositoryPath with
      | some r => some r
      | none => c.repositoryPath }

/-- The scheduler instance as the service sees it: the node-cron task
handle (`task !== null`), the stored callback, the instance-level cron
expression, and the persisted-state record. -/
structure SchedulerM where
  taskInstalled : Bool
  callbackInstalled : Bool
  cronExpression : String
  state : SchedulerState

/-- `Scheduler.stop()`: destroy the task and clear the active flag;
no-op without a task; never throws. -/
def schedulerStop (s : SchedulerM) : SchedulerM :=
  if s.taskInstalled then
    { s with taskInstalled := false, state := { s.state with isActive := false } }
  else s

/-- `Scheduler.isRunning()`. -/
def schedulerIsRunning (s : SchedulerM) : Bool :=
  s.taskInstalled && s.state.isActive

/-- `Scheduler.schedule(cronExpression, callback)`: validate (node-cron's
validator supplied as `validateCron`), stop any existing task, install
callback/expression/task, recompute `nextRun`. The second component is
the thrown `SchedulerError` message, if any. -/
def schedulerSchedule (validateCron : String → Bool) (expr : String) (now : LocalDateTime)
    (s : SchedulerM) : SchedulerM × Option String :=
  if !validateCron expr then
    (s, some ("Failed to schedule task: Invalid cron expression: " ++ expr))
  else
    let s1 := schedulerStop s
    let s2 := { s1 with
                callbackInstalled := true,
                cronExpression := expr,
                taskInstalled := true,
                state := { s1.state with cronExpression := expr, isActive := false } }
    ({ s2 with state := calculateNextRun expr now s2.state }, none)

/-- `Scheduler.start()`. -/
def schedulerStart (now : LocalDateTime) (s : SchedulerM) : SchedulerM × Option String :=
  if !s.taskInstalled then (s, some "No task scheduled. Call schedule() first.")
  else if schedulerIsRunning s then (s, none)
  else
    let st1 := { s.state with isActive := true }
    ({ s with state := calculateNextRun s.cronExpression now st1 }, none)

/-- `Scheduler.updateSchedule(cronExpression)`: no-op on an identical
expression; otherwise, when a callback is installed, re-schedule and
restart if previously running. -/
def schedulerUpdateSchedule (validateCron : String → Bool) (expr : String)
    (now : LocalDateTime) (s : SchedulerM) : SchedulerM × Option String :=
  if expr = s.cronExpression then (s, none)
  else
    let wasRunning := schedulerIsRunning s
    if s.callbackInstalled then
      match schedulerSchedule validateCron expr now s with
      | (s1, some e) => (s1, some e)
      | (s1, none) =>
        if wasRunning then schedulerStart now s1 else (s1, none)
    else (s, none)

/-- The `AutoCommitService` lifecycle state that `updateConfig` touches. -/
structure ServiceM where
  config : Option AutoCommitConfig
  isInitialized : Bool
  isServiceRunning : Bool
  scheduler : SchedulerM
  repositoryPath : String
  lastError : Option String

/-- `AutoCommitService.stop()`: no-op when not running; stops the
scheduler and clears the running flag. -/
def serviceStop (s : ServiceM) : ServiceM :=
  if !s.isServiceRunning then s
  else { s with scheduler := schedulerStop s.scheduler, isServiceRunning := false }

/-- `AutoCommitService.start()`: guards, then `schedule` + `start` on the
scheduler with the configured `commitTime`; the catch stores the error in
`lastError` and rethrows (second component). -/
def serviceStart (validateCron : String → Bool) (now : LocalDateTime) (s : ServiceM) :
    ServiceM × Option String :=
  if !s.isInitialized then
    ({ s with lastError := some "Service not initialized. Call initialize() first." },
      some "Service not initialized. Call initialize() first.")
  else
    match s.config with
    | none => ({ s with lastError := some "Configuration not loaded" },
        some "Configuration not loaded")
    | some cfg =>
      if !cfg.enabled then (s, none)
      else if s.isServiceRunning then (s, none)
      else
        match schedulerSchedule validateCron cfg.commitTime now s.scheduler with
        | (sch, some e) => ({ s with scheduler := sch, lastError := some e }, some e)
        | (sch, none) =>
          match schedulerStart now sch with
          | (sch2, some e) => ({ s with scheduler := sch2, lastError := some e }, some e)
          | (sch2, none) => ({ s with scheduler := sch2, isServiceRunning := true }, none)

/-- The `if (newConfig.commitTime && newConfig.commitTime !==
this.config.commitTime) this.scheduler.updateSchedule(...)` step of
`updateConfig`, performed after `this.config` was replaced by
`updatedConfig`.  The third component records whether `updateSchedule`
was invoked. -/
def commitTimeStep (validateCron : String → Bool) (now : LocalDateTime)
    (updatedConfig : AutoCommitConfig) (newCommitTime : Option String) (s3 : ServiceM) :
    ServiceM × Option String × Bool :=
  match newCommitTime with
  | some t =>
    if t ≠ "" ∧ t ≠ updatedConfig.commitTime then
      match schedulerUpdateSchedule validateCron t now s3.scheduler with
      | (sch, e) => ({ s3 with scheduler := sch }, e, true)
    else (s3, none, false)
  | none => (s3, none, false)

/-- Observable outcome of `updateConfig`: the service afterwards, the
rethrown error message if the call threw, and whether
`scheduler.updateSchedule` was ever invoked. -/
structure UpdateOutcome where
  svc : ServiceM
  err : Option String
  updateScheduleCalled : Bool

/-- `AutoCommitService.updateConfig(newConfig)`: merge, validate, save
(`saveResult` is the outcome of `configManager.saveConfig`), stop when
running, swap `this.config`, optionally update the git path, compare
`newConfig.commitTime` against the already-swapped `this.config`, and
restart when it was running and still enabled. -/
def updateConfig (validateCron : String → Bool) (validateConfig : AutoCommitConfig → Bool)
    (saveResult : Option String) (now : LocalDateTime)
    (s : ServiceM) (newConfig : PartialConfig) : UpdateOutcome :=
  match s.config with
  | none =>
    { svc := { s with lastError := some "Configuration not loaded" },
      err := some "Configuration not loaded",
      updateScheduleCalled := false }
  | some cfg =>
    let updatedConfig := mergeConfig cfg newConfig
    if !validateConfig updatedConfig then
      { svc := { s with lastError := some "Invalid configuration" },
        err := some "Invalid configuration",
        updateScheduleCalled := false }
    else
      match saveResult with
      | some e =>
        { svc := { s with lastError := some e }, err := some e,
          updateScheduleCalled := false }
      | none =>
        let wasRunning := s.isServiceRunning
        let s1 := if wasRunning then serviceStop s else s
        let s2 := { s1 with config := some updatedConfig }
        let s3 :=
          match newConfig.repositoryPath with
          | some p => if p ≠ "" then { s2 with repositoryPath := p } else s2
          | none => s2
        match commitTimeStep validateCron now updatedConfig newConfig.commitTime s3 with
        | (s4, some e, called) =>
          { svc := { s4 with lastError := some e }, err := some e,
            updateScheduleCalled := called }
        | (s4, none, called) =>
          if wasRunning && updatedConfig.enabled then
            match serviceStart validateCron now s4 with
            | (s5, some e) =>
              { svc := { s5 with lastError := some e }, err := some e,
                updateScheduleCalled := called }
            | (s5, none) => { svc := s5, err := none, updateScheduleCalled := called }
          else { svc := s4, err := none, updateScheduleCalled := called }


/-- A concrete mid-merge repository: valid repo, no conflict markers,
`MERGE_HEAD` present, working tree dirty. -/
def mergeRepoEnv : RepoEnv :=
  { revParseOk := true, diffCheck := .ok (), mergeHeadExists := true,
    rebaseMergeExists := false, rebaseApplyExists := false,
    symbolicRef := .ok "refs/heads/main", statusPorcelain := .ok " M src/app.ts" }

/-- Sample analysis record for concrete evaluations. -/
def sampleAnalysis : FileAnalysis :=
  { changeType := "code", summary := "update 1 code file" }

/-- Sample date formatting for concrete evaluations. -/
def sampleNow : NowStrings :=
  { dateStr := "2025-01-03", timeStr := "09:00:00",
    timestampStr := "2025-01-03T09:00:00.000Z", dayStr := "Friday",
    monthStr := "January", yearStr := "2025" }

/-- A concrete `executeCommit` environment over the mid-merge repository. -/
def mergeExecEnv : ExecEnv :=
  { repo := mergeRepoEnv, attempts := fun _ => .ok "abc123",
    analysis := sampleAnalysis, nowStrings := sampleNow }

/-- A sample configuration record. -/
def sampleConfig : AutoCommitConfig :=
  { enabled := true, commitTime := "0 18 * * *", messageTemplate := "",
    retryAttempts := 3, retryDelayMs := 1000, repositoryPath := none }

/-- A template longer than 72 characters with no known placeholders. -/
def longTemplate : String :=
  "chore: periodic repository snapshot with extended description text exceeding the git subject limit"

/-- A sample idle scheduler instance. -/
def sampleScheduler : SchedulerM :=
  { taskInstalled := false, callbackInstalled := false, cronExpression := "",
    state := { lastRun := none, nextRun := none, isActive := false,
               cronExpression := "", missedExecutions := [] } }

/-- A sample initialized but stopped service. -/
def sampleService : ServiceM :=
  { config := some sampleConfig, isInitialized := true, isServiceRunning := false,
    scheduler := sampleScheduler, repositoryPath := ".", lastError := none }

/-- A partial configuration changing only `commitTime`. -/
def samplePartial : PartialConfig :=
  { enabled := none, commitTime := some "0 9 * * *", messageTemplate := none,
    retryAttempts := none, retryDelayMs := none, repositoryPath := none }

/-! ## Supporting lemmas -/

/-- `updateLastRun` only touches `lastRun` and `nextRun`; the missed-run
log is untouched. -/
theorem updateLastRun_missedExecutions (c : String) (n : LocalDateTime) (st : SchedulerState) :
    (updateLastRun c n st).missedExecutions = st.missedExecutions := by
  unfold updateLastRun calculateNextRun
  split
  · rfl
  · split <;> rfl

/-- Length of the push-then-evict step on the missed-run log. -/
theorem trim10_length (l : List LocalDateTime) (x : LocalDateTime) :
    (if (l ++ [x]).length > 10
     then (l ++ [x]).drop ((l ++ [x]).length - 10)
     else l ++ [x]).length = min (l.length + 1) 10 := by
  have h1 : (l ++ [x]).length = l.length + 1 := by simp
  split
  · rename_i h
    rw [h1] at h
    simp only [List.length_drop, h1]
    omega
  · rename_i h
    rw [h1] at h
    rw [h1]
    omega

/-- On a detected missed run (whether or not the callback throws), the
in-memory missed-run log afterwards is the pushed-then-evicted list. -/
theorem handleMissed_state_missed (env : MissedEnv) (lastRun : LocalDateTime)
    (hlr : env.loaded.lastRun = some lastRun) (hcb : env.hasCallback = true)
    (hsr : shouldHaveRunSince env.instanceCron lastRun env.now = true) :
    (handleMissedExecutions env).state.missedExecutions =
      (if (env.loaded.missedExecutions ++ [env.now]).length > 10
       then (env.loaded.missedExecutions ++ [env.now]).drop
          ((env.loaded.missedExecutions ++ [env.now]).length - 10)
       else env.loaded.missedExecutions ++ [env.now]) := by
  rcases hce : env.callbackError with _ | msg
  · simp only [handleMissedExecutions, hlr, hcb, hsr, hce, if_true]
    rw [updateLastRun_missedExecutions]
  · simp only [handleMissedExecutions, hlr, hcb, hsr, hce, if_true]

/-- Single-step bound: one `handleMissedExecutions` call leaves the
missed-run log no longer than `max` of its previous length and 10. -/
theorem handleMissed_step_len (env : MissedEnv) :
    (handleMissedExecutions env).state.missedExecutions.length ≤
      max env.loaded.missedExecutions.length 10 := by
  rcases hlr : env.loaded.lastRun with _ | lastRun
  · simp only [handleMissedExecutions, hlr]
    exact Nat.le_max_left _ _
  · cases hcb : env.hasCallback
    · simp only [handleMissedExecutions, hlr, hcb]
      exact Nat.le_max_left _ _
    · cases hsr : shouldHaveRunSince env.instanceCron lastRun env.now
      · simp only [handleMissedExecutions, hlr, hcb, hsr, Bool.false_eq_true, if_false]
        exact Nat.le_max_left _ _
      · rw [handleMissed_state_missed env lastRun hlr hcb hsr, trim10_length]
        omega

/-- If `pat` does not occur in `s` (and the fuel suffices), replacement
leaves `s` unchanged. -/
theorem replaceAllGo_not_sub (pat rep : List Char) :
    ∀ (fuel : Nat) (s : List Char), s.length ≤ fuel → hasSub s pat = false →
      replaceAllGo fuel s pat rep = s := by
  intro fuel
  induction fuel with
  | zero =>
    intro s hlen _
    cases s with
    | nil => rfl
    | cons c rest => simp at hlen
  | succ f ih =>
    intro s hlen hsub
    cases s with
    | nil => rfl
    | cons c rest =>
      unfold hasSub at hsub
      simp only [Bool.or_eq_false_iff] at hsub
      unfold replaceAllGo
      rw [if_neg, ih rest (by simpa using Nat.le_of_succ_le_succ hlen) hsub.2]
      intro hcontra
      rw [hcontra.2] at hsub
      simp at hsub

/-- If `pat` does not occur in `s`, `jsReplaceAll` is the identity. -/
theorem jsReplaceAll_not_sub (s pat rep : String) (h : hasSub s.data pat.data = false) :
    jsReplaceAll s pat rep = s := by
  unfold jsReplaceAll
  rw [replaceAllGo_not_sub _ _ _ _ (Nat.le_refl _) h]

/-- `String` length is the length of the underlying character list. -/
theorem strLength_data (s : String) : s.length = s.data.length := rfl

/-- `String` append concatenates the underlying character lists. -/
theorem strData_append (a b : String) : (a ++ b).data = a.data ++ b.data := rfl

/-- Loop invariant for the all-attempts-retryable case: starting at
`attempt` with `rem = maxRetries + 1 - attempt` iterations left, when every
remaining attempt fails retryably the loop performs all `rem` attempts,
sleeps between consecutive ones, and ends with the exhaustion error built
from the final attempt's error. -/
theorem retryGo_allfail (attempts : Nat → Except JsError String)
    (errs : Nat → JsError) (maxRetries retryDelayMs : Nat) :
    ∀ (rem : Nat), 1 ≤ rem → ∀ (attempt : Nat) (lastE : Option JsError),
      attempt + rem = maxRetries + 1 →
      (∀ k, attempt ≤ k → k ≤ maxRetries →
        attempts k = .error (errs k) ∧ isNonRetryable (errs k) = false) →
      retryGo attempts maxRetries retryDelayMs attempt rem lastE =
        { result := .error (JsError.mk (exhaustMsg maxRetries (some (errs maxRetries))) true
            (some (errs maxRetries))),
          attemptsMade := rem, delays := List.replicate (rem - 1) retryDelayMs } := by
  intro rem
  induction rem with
  | zero => intro h; omega
  | succ r ih =>
    intro _ attempt lastE hsum h
    have hatt : attempt ≤ maxRetries := by omega
    have hk := h attempt (Nat.le_refl _) hatt
    unfold retryGo
    rw [hk.1]
    simp only [hk.2, Bool.false_eq_true, if_false]
    cases r with
    | zero =>
      have heq : attempt = maxRetries := by omega
      subst heq
      unfold retryGo
      simp
    | succ r2 =>
      rw [ih (by omega) (attempt + 1) (some (errs attempt)) (by omega)
        (fun k hk1 hk2 => h k (by omega) hk2)]
      have hlt : attempt < maxRetries := by omega
      simp [hlt, List.replicate_succ]

theorem placeholderPairs_keys (analysis : FileAnalysis) (files : List String)
    (now : NowStrings) :
    ∀ p ∈ placeholderPairs analysis files now, p.1 ∈ knownPlaceholderKeys := by
  intro p hp
  fin_cases hp <;> simp [knownPlaceholderKeys]

theorem foldl_replace_id (ps : List (String × String)) (t : String)
    (h : ∀ p ∈ ps, hasSub t.data p.1.data = false) :
    ps.foldl (fun m pv => jsReplaceAll m pv.1 pv.2) t = t := by
  induction ps with
  | nil => rfl
  | cons p ps ih =>
    simp only [List.foldl_cons]
    rw [jsReplaceAll_not_sub _ _ _ (h p (by simp))]
    exact ih (fun q hq => h q (by simp [hq]))

theorem commitTimeStep_noop (validateCron : String → Bool) (now : LocalDateTime)
    (cfg : AutoCommitConfig) (p : PartialConfig) (s3 : ServiceM) :
    commitTimeStep validateCron now (mergeConfig cfg p) p.commitTime s3 = (s3, none, false) := by
  rcases h : p.commitTime with _ | t
  · rfl
  · have hcond : ¬ (t ≠ "" ∧ t ≠ (mergeConfig cfg p).commitTime) := by
      intro hcontra
      exact hcontra.2 (by simp [mergeConfig, h])
    simp only [commitTimeStep, h]
    rw [if_neg hcond]

theorem calculateNextRun_isActive (c : String) (n : LocalDateTime) (st : SchedulerState) :
    (calculateNextRun c n st).isActive = st.isActive := by
  unfold calculateNextRun
  split
  · rfl
  · split <;> rfl

/-! ## Claim theorems -/

/-- C2: if the first `createCommit` attempt fails with a non-retryable
precondition error (no changes / empty message / unsafe state), the retry
wrapper re-throws that very error after exactly one attempt, with no
delay, for every `maxRetries ≥ 1`. -/
theorem createCommitWithRetry_nonRetryable_immediate
    (attempts : Nat → Except JsError String) (maxRetries retryDelayMs : Nat) (e : JsError)
    (hmax : 1 ≤ maxRetries) (hfirst : attempts 1 = .error e)
    (hclass : isNonRetryable e = true) :
    createCommitWithRetry attempts maxRetries retryDelayMs =
      { result := .error e, attemptsMade := 1, delays := [] } := by
  obtain ⟨m, rfl⟩ : ∃ m, maxRetries = m + 1 := ⟨maxRetries - 1, by omega⟩
  unfold createCommitWithRetry retryGo
  rw [hfirst]
  simp [hclass]

/-- C2 witness: a "no changes" failure on attempt 1 with `maxRetries = 3`
makes exactly one attempt and re-throws it. -/
theorem createCommitWithRetry_nonRetryable_immediate_witness :
    createCommitWithRetry
        (fun _ => .error (JsError.mk "No changes to commit" true none)) 3 1000 =
      { result := .error (JsError.mk "No changes to commit" true none),
        attemptsMade := 1, delays := [] } :=
  createCommitWithRetry_nonRetryable_immediate
    (fun _ => .error (JsError.mk "No changes to commit" true none)) 3 1000
    (JsError.mk "No changes to commit" true none)
    (by omega) rfl (by decide)

/-- C3: when every attempt fails with a retryable error, the wrapper makes
exactly `maxRetries` attempts, sleeps `retryDelayMs` between consecutive
attempts (none after the last), and throws the exhaustion
`GitOperationError` wrapping the last underlying error. -/
theorem createCommitWithRetry_retryable_exhausts
    (attempts : Nat → Except JsError String) (errs : Nat → JsError)
    (maxRetries retryDelayMs : Nat) (hmax : 1 ≤ maxRetries)
    (h : ∀ k, 1 ≤ k → k ≤ maxRetries →
      attempts k = .error (errs k) ∧ isNonRetryable (errs k) = false) :
    createCommitWithRetry attempts maxRetries retryDelayMs =
      { result := .error (JsError.mk (exhaustMsg maxRetries (some (errs maxRetries))) true
          (some (errs maxRetries))),
        attemptsMade := maxRetries,
        delays := List.replicate (maxRetries - 1) retryDelayMs } := by
  unfold createCommitWithRetry
  exact retryGo_allfail attempts errs maxRetries retryDelayMs maxRetries hmax 1 none
    (by omega) h

/-- C3 witness: three attempts all failing with a transient error make 3
attempts, sleep twice, and end in the wrapped exhaustion error. -/
theorem createCommitWithRetry_retryable_exhausts_witness :
    createCommitWithRetry
        (fun _ => .error (JsError.mk "Git command failed: lock held" false none)) 3 250 =
      { result := .error (JsError.mk
          (exhaustMsg 3 (some (JsError.mk "Git command failed: lock held" false none))) true
          (some (JsError.mk "Git command failed: lock held" false none))),
        attemptsMade := 3, delays := List.replicate 2 250 } :=
  createCommitWithRetry_retryable_exhausts
    (fun _ => .error (JsError.mk "Git command failed: lock held" false none))
    (fun _ => JsError.mk "Git command failed: lock held" false none) 3 250
    (by omega)
    (fun _ _ _ =>
      ⟨rfl, show isNonRetryable (JsError.mk "Git command failed: lock held" false none) = false
        by decide⟩)

/-- C4: with a persisted `lastRun` and an installed callback (so a
non-empty instance cron expression) and a callback that does not throw,
`handleMissedExecutions()` detects a missed run precisely when the
calendar date of now is strictly after the calendar date of `lastRun`:
then it returns true, runs the callback exactly once and appends exactly
one entry to `missedExecutions`; otherwise it returns false, does not run
the callback and leaves the state untouched. -/
theorem handleMissedExecutions_day_boundary
    (env : MissedEnv) (lastRun : LocalDateTime)
    (hlr : env.loaded.lastRun = some lastRun)
    (hcb : env.hasCallback = true)
    (hok : env.callbackError = none)
    (hcron : env.instanceCron ≠ "") :
    ((handleMissedExecutions env).result = .ok true ↔ dateKey lastRun < dateKey env.now) ∧
    (dateKey lastRun < dateKey env.now →
      (handleMissedExecutions env).callbackCalls = 1 ∧
      (env.loaded.missedExecutions.length < 10 →
        (handleMissedExecutions env).state.missedExecutions =
          env.loaded.missedExecutions ++ [env.now])) ∧
    (¬ dateKey lastRun < dateKey env.now →
      (handleMissedExecutions env).result = .ok false ∧
      (handleMissedExecutions env).callbackCalls = 0 ∧
      (handleMissedExecutions env).state = env.loaded) := by
  by_cases hd : dateKey lastRun < dateKey env.now
  · have hsr : shouldHaveRunSince env.instanceCron lastRun env.now = true := by
      unfold shouldHaveRunSince
      rw [if_neg hcron]
      exact decide_eq_true hd
    refine ⟨?_, ?_, fun h => absurd hd h⟩
    · simp only [handleMissedExecutions, hlr, hcb, hok, hsr, if_true]
      simp [hd]
    · intro _
      constructor
      · simp only [handleMissedExecutions, hlr, hcb, hok, hsr, if_true]
      · intro hlen
        rw [handleMissed_state_missed env lastRun hlr hcb hsr]
        have h1 : (env.loaded.missedExecutions ++ [env.now]).length
            = env.loaded.missedExecutions.length + 1 := by simp
        rw [if_neg]
        rw [h1]
        omega
  · have hsr : shouldHaveRunSince env.instanceCron lastRun env.now = false := by
      unfold shouldHaveRunSince
      rw [if_neg hcron]
      exact decide_eq_false hd
    refine ⟨?_, fun h => absurd h hd, fun _ => ?_⟩
    · simp only [handleMissedExecutions, hlr, hcb, hok, hsr, Bool.false_eq_true, if_false]
      simp [hd]
    · simp [handleMissedExecutions, hlr, hcb, hok, hsr]

/-- C4 witness: `lastRun` two calendar days before now returns true,
invokes the callback once and appends exactly one entry. -/
theorem handleMissedExecutions_day_boundary_witness :
    (handleMissedExecutions recoveryEnv).result = .ok true ∧
    (handleMissedExecutions recoveryEnv).callbackCalls = 1 ∧
    (handleMissedExecutions recoveryEnv).state.missedExecutions
      = [⟨2025, 1, 3, 9, 0, 0, 0⟩] := by
  have h := handleMissedExecutions_day_boundary recoveryEnv ⟨2025, 1, 1, 18, 0, 0, 0⟩
    rfl rfl rfl (by decide)
  have hd : dateKey ⟨2025, 1, 1, 18, 0, 0, 0⟩ < dateKey recoveryEnv.now := by decide
  exact ⟨h.1.mpr hd, (h.2.1 hd).1, by simpa using (h.2.1 hd).2 (by decide)⟩

/-- C5 evaluation at the failing input: the scenario of the repository's
own scheduler test `'should handle errors during missed execution
gracefully'` (persisted `lastRun` two days old, callback throwing
`'Execution failed'`).  The specification and that test say the exception
propagates to the caller; the code's outer `catch` swallows the re-thrown
error, so the call settles with `false` instead of rejecting.  The
bookkeeping part of the claim does hold: the callback ran once, nothing
was persisted and `lastRun` was not updated. -/
theorem handleMissedExecutions_callback_throw_swallowed :
    (handleMissedExecutions throwingRecoveryEnv).result = .ok false ∧
    (handleMissedExecutions throwingRecoveryEnv).callbackCalls = 1 ∧
    (handleMissedExecutions throwingRecoveryEnv).persisted = none ∧
    (handleMissedExecutions throwingRecoveryEnv).state.lastRun
      = some ⟨2025, 1, 1, 18, 0, 0, 0⟩ :=
  ⟨rfl, rfl, rfl, rfl⟩

/-- C6: `getNextCronDate` for `"0 18 * * *"` resolves only the minute and
hour fields, builds the candidate `today 18:00:00.000`, and advances one
calendar day exactly when the candidate is not after `fromDate`; in
particular from 2025-01-01T10:00 it yields 2025-01-01T18:00 and from
2025-01-01T19:00 it yields 2025-01-02T18:00. -/
theorem getNextCronDate_fixed_time :
    (∀ d : LocalDateTime,
      getNextCronDate "0 18 * * *" d =
        some (if toKey { d with hour := 18, minute := 0, second := 0, ms := 0 } ≤ toKey d
              then addOneDay { d with hour := 18, minute := 0, second := 0, ms := 0 }
              else { d with hour := 18, minute := 0, second := 0, ms := 0 })) ∧
    getNextCronDate "0 18 * * *" ⟨2025, 1, 1, 10, 0, 0, 0⟩ = some ⟨2025, 1, 1, 18, 0, 0, 0⟩ ∧
    getNextCronDate "0 18 * * *" ⟨2025, 1, 1, 19, 0, 0, 0⟩ = some ⟨2025, 1, 2, 18, 0, 0, 0⟩ := by
  refine ⟨fun d => rfl, by decide, by decide⟩

/-- C7: the missed-run log never exceeds 10 entries across any number of
recovery events (part 1: the bound is preserved by arbitrary iteration),
and a detected recovery appends the new timestamp and keeps exactly the
most recent `min (n+1) 10` entries, a suffix of the appended log — the
oldest entries are evicted first (part 2). -/
theorem missedExecutions_bounded :
    (∀ (es : List MissedEnv) (st : SchedulerState), st.missedExecutions.length ≤ 10 →
      (es.foldl missedStep st).missedExecutions.length ≤ 10) ∧
    (∀ (env : MissedEnv) (lastRun : LocalDateTime),
      env.loaded.lastRun = some lastRun → env.hasCallback = true →
      shouldHaveRunSince env.instanceCron lastRun env.now = true →
      (handleMissedExecutions env).state.missedExecutions.length
          = min (env.loaded.missedExecutions.length + 1) 10 ∧
      (handleMissedExecutions env).state.missedExecutions
          <:+ (env.loaded.missedExecutions ++ [env.now])) := by
  constructor
  · intro es
    induction es with
    | nil => intro st h; simpa using h
    | cons e rest ih =>
      intro st h
      simp only [List.foldl_cons]
      apply ih
      have hstep : (handleMissedExecutions { e with loaded := st }).state.missedExecutions.length
          ≤ max st.missedExecutions.length 10 := handleMissed_step_len _
      rw [Nat.max_eq_right h] at hstep
      exact hstep
  · intro env lastRun hlr hcb hsr
    constructor
    · rw [handleMissed_state_missed env lastRun hlr hcb hsr, trim10_length]
    · rw [handleMissed_state_missed env lastRun hlr hcb hsr]
      split
      · exact List.drop_suffix _ _
      · exact List.suffix_refl _

/-- C7 witness: one recovery event from an empty log stays within the
bound, and the detected recovery keeps exactly `min 1 10` entries, a
suffix of the appended log. -/
theorem missedExecutions_bounded_witness :
    ([recoveryEnv].foldl missedStep recoveryEnv.loaded).missedExecutions.length ≤ 10 ∧
    (handleMissedExecutions recoveryEnv).state.missedExecutions.length
        = min (recoveryEnv.loaded.missedExecutions.length + 1) 10 ∧
    (handleMissedExecutions recoveryEnv).state.missedExecutions
        <:+ (recoveryEnv.loaded.missedExecutions ++ [recoveryEnv.now]) := by
  have h2 := missedExecutions_bounded.2 recoveryEnv ⟨2025, 1, 1, 18, 0, 0, 0⟩
    rfl rfl (by decide)
  exact ⟨missedExecutions_bounded.1 [recoveryEnv] recoveryEnv.loaded (by decide),
    h2.1, h2.2⟩

/-- C1: `executeCommit()` never throws — every invocation settles with a
result object (`.ok`) — and whenever the result is a failure the result
carries the error text and the service's `lastError` holds it (either the
underlying error text itself, or on the unsafe-state path the warning
message that is also the result's message text). -/
theorem executeCommit_contained_failures (env : ExecEnv) (config : Option AutoCommitConfig)
    (st : ServiceRunState) (startTime : LocalDateTime) :
    ∃ o, executeCommit env config st startTime = .ok o ∧
      (o.result.success = false →
        o.result.error.isSome = true ∧
        (o.state.lastError = o.result.error ∨ o.state.lastError = some o.result.message)) := by
  unfold executeCommit
  rcases config with _ | cfg
  · exact ⟨_, rfl, fun _ => by simp⟩
  · rcases hs : env.repo.statusPorcelain with m | statusOut
    · exact ⟨_, rfl, fun _ => by simp⟩
    · by_cases hch : hasChangesOf statusOut
      · by_cases hcl : isRepositoryClean env.repo
        · simp only [hch, hcl, Bool.not_true, Bool.false_eq_true, if_false]
          rcases hres : (createCommitWithRetry env.attempts cfg.retryAttempts
              cfg.retryDelayMs).result with e | hash
          · exact ⟨_, rfl, fun _ => by simp⟩
          · exact ⟨_, rfl, fun hcontra => by simp at hcontra⟩
        · simp only [hch, Bool.not_true, Bool.false_eq_true, if_false]
          simp only [hcl, Bool.not_false, if_true]
          exact ⟨_, rfl, fun _ => by simp⟩
      · simp only [hch, Bool.not_false, if_true]
        exact ⟨_, rfl, fun hcontra => by simp at hcontra⟩

/-- C1 witness: the concrete mid-merge environment settles with `.ok` and
satisfies the failure/`lastError` property. -/
theorem executeCommit_contained_failures_witness :
    ∃ o, executeCommit mergeExecEnv (some sampleConfig)
        { totalCommits := 0, lastCommitDate := none, lastError := none }
        ⟨2025, 1, 3, 9, 0, 0, 0⟩ = .ok o ∧
      (o.result.success = false →
        o.result.error.isSome = true ∧
        (o.state.lastError = o.result.error ∨ o.state.lastError = some o.result.message)) :=
  executeCommit_contained_failures mergeExecEnv (some sampleConfig)
    { totalCommits := 0, lastCommitDate := none, lastError := none }
    ⟨2025, 1, 3, 9, 0, 0, 0⟩

/-- C8: with a valid repository, no conflict report and the mid-merge
marker present, classification yields `merging`, the safety predicate is
false, and (when uncommitted changes exist, so that the no-op path is not
taken) `executeCommit` returns a failure whose message and recorded
`lastError` contain the word `"merging"`, without entering the
staging/commit pipeline. -/
theorem mergingState_skips_commit
    (env : ExecEnv) (cfg : AutoCommitConfig) (st : ServiceRunState) (startTime : LocalDateTime)
    (hrev : env.repo.revParseOk = true)
    (hconf : diffCheckConflict env.repo = false)
    (hmh : env.repo.mergeHeadExists = true)
    (hst : ∃ s, env.repo.statusPorcelain = .ok s ∧ hasChangesOf s = true) :
    getRepositoryState env.repo = .merging ∧
    isRepositoryClean env.repo = false ∧
    ∃ o, executeCommit env (some cfg) st startTime = .ok o ∧
      o.result.success = false ∧
      jsIncludes o.result.message "merging" = true ∧
      jsIncludes o.result.message (GitRepositoryState.merging).toStr = true ∧
      o.commitAttempted = false ∧
      o.state.lastError = some o.result.message := by
  have hstate : getRepositoryState env.repo = .merging := by
    unfold getRepositoryState
    simp [hrev, hconf, hmh]
  have hclean : isRepositoryClean env.repo = false := by
    unfold isRepositoryClean
    rw [hstate]
  refine ⟨hstate, hclean, ?_⟩
  obtain ⟨s, hs, hch⟩ := hst
  have hinfo : getRepositoryInfoState env.repo = .merging := by
    unfold getRepositoryInfoState
    rw [if_pos hrev, hstate]
  unfold executeCommit
  rw [hs]
  simp only [hch, Bool.not_true, Bool.false_eq_true, if_false, hclean, Bool.not_false, if_true]
  rw [hinfo]
  refine ⟨_, rfl, rfl, ?_, ?_, rfl, rfl⟩
  · show jsIncludes ("Repository is not in a clean state (" ++
        GitRepositoryState.merging.toStr ++ "), skipping auto-commit") "merging" = true
    decide
  · show jsIncludes ("Repository is not in a clean state (" ++
        GitRepositoryState.merging.toStr ++ "), skipping auto-commit")
        (GitRepositoryState.merging).toStr = true
    decide

/-- C8 witness: the concrete mid-merge repository is classified `merging`,
is unsafe, and `executeCommit` skips with a "merging" failure. -/
theorem mergingState_skips_commit_witness :
    getRepositoryState mergeRepoEnv = .merging ∧
    isRepositoryClean mergeRepoEnv = false ∧
    ∃ o, executeCommit mergeExecEnv (some sampleConfig)
        { totalCommits := 0, lastCommitDate := none, lastError := none }
        ⟨2025, 1, 3, 9, 0, 0, 0⟩ = .ok o ∧
      o.result.success = false ∧
      jsIncludes o.result.message "merging" = true ∧
      jsIncludes o.result.message (GitRepositoryState.merging).toStr = true ∧
      o.commitAttempted = false ∧
      o.state.lastError = some o.result.message :=
  mergingState_skips_commit mergeExecEnv sampleConfig
    { totalCommits := 0, lastCommitDate := none, lastError := none }
    ⟨2025, 1, 3, 9, 0, 0, 0⟩ rfl (by decide) rfl
    ⟨" M src/app.ts", rfl, by decide⟩

/-- C9: the template engine replaces only the known placeholders — a
template containing none of them (so in particular one holding only
unknown placeholders) renders verbatim, with no error possible (the
function is total) — and the rendered message is returned as is when it
fits in 72 characters, while a longer one is cut to exactly 72 characters
ending in the trailing `"..."`. -/
theorem applyMessageTemplate_placeholders_truncation
    (template : String) (analysis : FileAnalysis) (files : List String) (now : NowStrings) :
    ((∀ k ∈ knownPlaceholderKeys, hasSub template.data k.data = false) →
      renderTemplate template analysis files now = template) ∧
    ((renderTemplate template analysis files now).length ≤ 72 →
      applyMessageTemplate template analysis files now
        = renderTemplate template analysis files now) ∧
    ((renderTemplate template analysis files now).length > 72 →
      (applyMessageTemplate template analysis files now).length = 72 ∧
      ∃ u, applyMessageTemplate template analysis files now = u ++ "..." ∧ u.length = 69) := by
  refine ⟨?_, ?_, ?_⟩
  · intro h
    unfold renderTemplate
    exact foldl_replace_id _ _
      (fun p hp => h p.1 (placeholderPairs_keys analysis files now p hp))
  · intro h
    unfold applyMessageTemplate
    split
    · rename_i hcond
      exact absurd hcond (by omega)
    · rfl
  · intro h
    unfold applyMessageTemplate
    rw [if_pos h]
    rw [strLength_data] at h
    constructor
    · rw [strLength_data, strData_append]
      simp only [jsTake, List.length_append, List.length_take]
      have h3 : (['.', '.', '.'] : List Char).length = 3 := rfl
      omega
    · refine ⟨jsTake (renderTemplate template analysis files now) (72 - 3), rfl, ?_⟩
      rw [strLength_data]
      simp only [jsTake, List.length_take]
      omega

/-- C9 witness: a short template with only an unknown placeholder passes
through verbatim; a 98-character template is cut to exactly 72
characters. -/
theorem applyMessageTemplate_placeholders_truncation_witness :
    applyMessageTemplate "chore: {username} daily snapshot" sampleAnalysis [] sampleNow
      = "chore: {username} daily snapshot" ∧
    (applyMessageTemplate longTemplate sampleAnalysis [] sampleNow).length = 72 := by
  have h1 := applyMessageTemplate_placeholders_truncation
    "chore: {username} daily snapshot" sampleAnalysis [] sampleNow
  have e1 : renderTemplate "chore: {username} daily snapshot" sampleAnalysis [] sampleNow
      = "chore: {username} daily snapshot" := h1.1 (by decide)
  have h2 := applyMessageTemplate_placeholders_truncation
    longTemplate sampleAnalysis [] sampleNow
  have e2 : renderTemplate longTemplate sampleAnalysis [] sampleNow = longTemplate :=
    h2.1 (by decide)
  constructor
  · rw [h1.2.1 (by rw [e1]; decide), e1]
  · exact (h2.2.2 (by rw [e2]; decide)).1

/-- C10: `updateConfig` never invokes `scheduler.updateSchedule` (the
service replaces `this.config` with the merged configuration before the
comparison, so `newConfig.commitTime !== this.config.commitTime` is always
false); while the service is not running the scheduler instance is left
completely untouched; and the new commit time takes effect only through
the stop-then-start restart path taken when the service was running, which
installs the merged `commitTime` on the scheduler. -/
theorem updateConfig_not_running_schedule_unchanged
    (validateCron : String → Bool) (validateConfig : AutoCommitConfig → Bool)
    (saveResult : Option String) (now : LocalDateTime)
    (s : ServiceM) (newConfig : PartialConfig) :
    (updateConfig validateCron validateConfig saveResult now s newConfig).updateScheduleCalled
      = false ∧
    (s.isServiceRunning = false →
      (updateConfig validateCron validateConfig saveResult now s newConfig).svc.scheduler
        = s.scheduler) ∧
    (∀ cfg, s.config = some cfg →
      validateConfig (mergeConfig cfg newConfig) = true → saveResult = none →
      s.isServiceRunning = true → s.isInitialized = true →
      (mergeConfig cfg newConfig).enabled = true →
      validateCron (mergeConfig cfg newConfig).commitTime = true →
      ((updateConfig validateCron validateConfig saveResult now s
        newConfig).svc.scheduler).cronExpression = (mergeConfig cfg newConfig).commitTime) := by
  refine ⟨?_, ?_, ?_⟩
  · unfold updateConfig
    rcases hc : s.config with _ | cfg
    · rfl
    · by_cases hv : validateConfig (mergeConfig cfg newConfig)
      · simp only [hv, Bool.not_true, Bool.false_eq_true, if_false]
        rcases hsv : saveResult with _ | e
        · simp only [commitTimeStep_noop]
          by_cases hr : s.isServiceRunning && (mergeConfig cfg newConfig).enabled
          · simp only [hr, if_true]
            rcases hss : serviceStart validateCron now _ with ⟨s5, _ | e5⟩ <;> rfl
          · simp only [hr, Bool.false_eq_true, if_false]
        · rfl
      · simp [hv]
  · intro hrun
    unfold updateConfig
    rcases hc : s.config with _ | cfg
    · rfl
    · by_cases hv : validateConfig (mergeConfig cfg newConfig)
      · simp only [hv, Bool.not_true, Bool.false_eq_true, if_false]
        rcases hsv : saveResult with _ | e
        · simp only [commitTimeStep_noop]
          simp only [hrun, Bool.false_and, Bool.false_eq_true, if_false]
          rcases hrp : newConfig.repositoryPath with _ | p
          · rfl
          · by_cases hp : p ≠ "" <;> simp [hp]
        · rfl
      · simp [hv]
  · intro cfg hc hvalid hsave hrun hinit hen hvc
    unfold updateConfig
    simp only [hc, hvalid, Bool.not_true, Bool.false_eq_true, if_false, hsave]
    simp only [commitTimeStep_noop]
    rcases hrp : newConfig.repositoryPath with _ | p
    · simp [hrun, hinit, hen, hvc, serviceStop, serviceStart, schedulerStop,
        schedulerSchedule, schedulerStart, schedulerIsRunning, calculateNextRun_isActive]
    · by_cases hp : p ≠ "" <;>
        simp [hrun, hinit, hen, hvc, hp, serviceStop, serviceStart, schedulerStop,
          schedulerSchedule, schedulerStart, schedulerIsRunning, calculateNextRun_isActive]

/-- C10 witness: updating only `commitTime` on a stopped service leaves
the scheduler untouched and never calls `updateSchedule`. -/
theorem updateConfig_not_running_schedule_unchanged_witness :
    (updateConfig (fun _ => true) (fun _ => true) none ⟨2025, 1, 3, 9, 0, 0, 0⟩
      sampleService samplePartial).updateScheduleCalled = false ∧
    (updateConfig (fun _ => true) (fun _ => true) none ⟨2025, 1, 3, 9, 0, 0, 0⟩
      sampleService samplePartial).svc.scheduler = sampleService.scheduler :=
  ⟨(updateConfig_not_running_schedule_unchanged (fun _ => true) (fun _ => true) none
      ⟨2025, 1, 3, 9, 0, 0, 0⟩ sampleService samplePartial).1,
   (updateConfig_not_running_schedule_unchanged (fun _ => true) (fun _ => true) none
      ⟨2025, 1, 3, 9, 0, 0, 0⟩ sampleService samplePartial).2.1 rfl⟩
